import Mathlib

/-!
Verification of the HelloGUI data-stream core: configuration validation
(`models/config_model.py`), the bounded dataset buffer
(`models/dataset_model.py`), application-state configuration updates
(`core/state.py`), waveform sampling (`core/data_stream.py`), and CSV
persistence (`core/io_manager.py`).

Python floats are embedded as elements of a linearly ordered carrier
(`ℝ` where trigonometric functions are involved); Python `int` is embedded
as `ℤ`; Python strings as `String`.  File contents are modelled at the
level csv.reader/csv.writer exposes them: a list of rows, each row a list
of string fields, with `none` standing for a missing file.  The Python
library functions `str`/`float` used to serialize and parse individual
fields are passed as explicit parameters.  Randomness is made explicit:
the draws `random.gauss` and `random.uniform` consume are passed as
arguments.
-/

/-- Configuration record from `models/config_model.py` (`ConfigModel`).
The numeric carrier `α` stands for Python float; `max_points` is a Python
int. -/
structure ConfigModel (α : Type) where
  amplitude : α
  frequency : α
  noise : α
  x_step : α
  waveform : String
  max_points : ℤ

/-- Constant `ConfigModel.VALID_WAVEFORMS` from `models/config_model.py`. -/
def VALID_WAVEFORMS : List String := ["sine", "square", "randomwalk"]

/-- Message returned by `validate` when `amplitude <= 0`. -/
def ampMsg : String := "Amplitude must be positive."

/-- Message returned by `validate` when `frequency < 0`. -/
def freqMsg : String := "Frequency must be non-negative."

/-- Message returned by `validate` when `noise < 0`. -/
def noiseMsg : String := "Noise must be non-negative."

/-- Message returned by `validate` when `x_step <= 0`. -/
def stepMsg : String := "X-step must be positive."

/-- Message returned by `validate` on an unknown waveform (the f-string
renders the constant tuple `VALID_WAVEFORMS`). -/
def waveMsg : String := "Waveform must be one of (\x27sine\x27, \x27square\x27, \x27randomwalk\x27)."

/-- Message returned by `validate` when `max_points < 10`. -/
def maxPtsMsg : String := "Max points must be at least 10."

/-- Method `ConfigModel.validate` from `models/config_model.py`: the six checks
in source order, first failure wins, `(True, "")` when all pass. -/
def ConfigModel.validate {α : Type} [LinearOrder α] [Zero α] (c : ConfigModel α) :
    Bool × String :=
  if c.amplitude ≤ 0 then (false, ampMsg)
  else if c.frequency < 0 then (false, freqMsg)
  else if c.noise < 0 then (false, noiseMsg)
  else if c.x_step ≤ 0 then (false, stepMsg)
  else if c.waveform ∉ VALID_WAVEFORMS then (false, waveMsg)
  else if c.max_points < 10 then (false, maxPtsMsg)
  else (true, "")

/-- Dataset record from `models/dataset_model.py` (`DatasetModel`). -/
structure DatasetModel (α : Type) where
  name : String
  points : List (α × α)
  max_length : ℤ

/-- Method `DatasetModel.add_point`: append `(x, y)`, then `pop(0)` (drop the
front element) whenever the length exceeds `max_length`. -/
def DatasetModel.add_point {α : Type} (d : DatasetModel α) (x y : α) : DatasetModel α :=
  let pts := d.points ++ [(x, y)]
  if (pts.length : ℤ) > d.max_length then
    DatasetModel.mk d.name pts.tail d.max_length
  else
    DatasetModel.mk d.name pts d.max_length

/-- Method `DatasetModel.point_count`: `len(self.points)`. -/
def DatasetModel.point_count {α : Type} (d : DatasetModel α) : ℕ :=
  d.points.length

/-- Fold a sequence of `add_point` calls over a dataset, in order. -/
def DatasetModel.addAll {α : Type} (d : DatasetModel α) (s : List (α × α)) : DatasetModel α :=
  s.foldl (fun d p => d.add_point p.1 p.2) d

/-- Application state from `core/state.py` (`AppState`). -/
structure AppState (α : Type) where
  config : ConfigModel α
  dataset : DatasetModel α
  running : Bool

/-- Method `AppState.apply_config` from `core/state.py`: validate the candidate;
on failure return `False` leaving the state untouched; on success replace
the config, set `dataset.max_length = config.max_points` and return
`True`.  The resulting state is returned alongside the boolean. -/
def AppState.apply_config {α : Type} [LinearOrder α] [Zero α]
    (st : AppState α) (c : ConfigModel α) : AppState α × Bool :=
  let v := c.validate
  if v.1 = false then (st, false)
  else
    (AppState.mk c (DatasetModel.mk st.dataset.name st.dataset.points c.max_points)
      st.running, true)

/-- The suffix of `l` of length `min l.length k`: the most recently
appended `k` (or fewer) elements. -/
def lastN {α : Type} (k : ℕ) (l : List α) : List α :=
  l.drop (l.length - k)

theorem lastN_length {α : Type} (k : ℕ) (l : List α) :
    (lastN k l).length = min l.length k := by
  simp [lastN]
  omega

theorem lastN_append_tail {α : Type} (k : ℕ) (l : List α) (x : α) (hk : k ≤ l.length) :
    (lastN k l ++ [x]).tail = lastN k (l ++ [x]) := by
  have h1 : lastN k l ++ [x] = (l ++ [x]).drop (l.length - k) := by
    rw [lastN, List.drop_append_of_le_length (by omega)]
  rw [h1, List.tail_drop, lastN]
  have h2 : l.length - k + 1 = (l ++ [x]).length - k := by
    simp only [List.length_append, List.length_singleton]
    omega
  rw [h2]

theorem lastN_append_keep {α : Type} (k : ℕ) (l : List α) (x : α) (hk : l.length < k) :
    lastN k l ++ [x] = lastN k (l ++ [x]) := by
  rw [lastN, lastN]
  have h0 : l.length - k = 0 := by omega
  have h1 : (l ++ [x]).length - k = 0 := by
    simp only [List.length_append, List.length_singleton]
    omega
  rw [h0, h1, List.drop_zero, List.drop_zero]

theorem add_point_lastN {α : Type} (nm : String) (m : ℤ) (l : List (α × α)) (p : α × α) :
    (DatasetModel.mk nm (lastN m.toNat l) m).add_point p.1 p.2 =
      DatasetModel.mk nm (lastN m.toNat (l ++ [p])) m := by
  obtain ⟨a, b⟩ := p
  have hlen : (lastN m.toNat l).length = min l.length m.toNat := lastN_length _ _
  simp only [DatasetModel.add_point, gt_iff_lt]
  by_cases hc : m < ((lastN m.toNat l ++ [(a, b)]).length : ℤ)
  · rw [if_pos hc]
    have hk : m.toNat ≤ l.length := by
      simp only [List.length_append, List.length_singleton, hlen] at hc
      omega
    rw [lastN_append_tail _ _ _ hk]
  · rw [if_neg hc]
    have hk : l.length < m.toNat := by
      simp only [List.length_append, List.length_singleton, hlen] at hc
      omega
    rw [lastN_append_keep _ _ _ hk]

theorem addAll_lastN {α : Type} (nm : String) (m : ℤ) (l : List (α × α)) (s : List (α × α)) :
    (DatasetModel.mk nm (lastN m.toNat l) m).addAll s =
      DatasetModel.mk nm (lastN m.toNat (l ++ s)) m := by
  induction s generalizing l with
  | nil => simp [DatasetModel.addAll]
  | cons p s ih =>
    show ((DatasetModel.mk nm (lastN m.toNat l) m).add_point p.1 p.2).addAll s = _
    rw [add_point_lastN, ih, List.append_assoc]
    rfl

/-- ASCII lowercasing of a character, for case-insensitive keyword
recognition in human-readable messages. -/
def asciiLower (c : Char) : Char :=
  if 65 ≤ c.toNat ∧ c.toNat ≤ 90 then Char.ofNat (c.toNat + 32) else c

/-- The character data of a string, ASCII-lowercased. -/
def lowerData (s : String) : List Char :=
  s.data.map asciiLower

/-- Predicate: `msg` contains the keyword `k` (case-insensitively): `k` occurs as a
contiguous substring of the lowercased message. -/
def hasKeyword (k msg : String) : Prop :=
  k.data <:+: lowerData msg

instance (k msg : String) : Decidable (hasKeyword k msg) :=
  inferInstanceAs (Decidable (k.data <:+: lowerData msg))

/-- C1: starting from an empty buffer of capacity `max_length = m ≥ 0`,
after any sequence `s` of `add_point` calls the buffer holds at most `m`
points, namely exactly the most-recently-added `min (s.length) m` points
of `s`, in insertion order (the oldest element, index 0, is evicted when
an insertion would exceed capacity). -/
theorem dataset_fifo_invariant (α : Type) (nm : String) (m : ℤ) (hm : 0 ≤ m)
    (s : List (α × α)) :
    ((((DatasetModel.mk nm [] m).addAll s).point_count : ℤ) ≤ m
      ∧ ((DatasetModel.mk nm [] m).addAll s).point_count = min s.length m.toNat
      ∧ ((DatasetModel.mk nm [] m).addAll s).points = s.drop (s.length - m.toNat)) := by
  have hnil : lastN m.toNat ([] : List (α × α)) = [] := by
    simp [lastN]
  have h := addAll_lastN nm m ([] : List (α × α)) s
  rw [hnil, List.nil_append] at h
  rw [h]
  refine ⟨?_, ?_, rfl⟩
  · have := lastN_length m.toNat s
    show ((lastN m.toNat s).length : ℤ) ≤ m
    rw [this]
    omega
  · exact lastN_length m.toNat s

/-- Concrete run of C1: capacity 2, three insertions; the buffer keeps
the last two points. -/
theorem dataset_fifo_invariant_witness :
    ((((DatasetModel.mk "Untitled" [] 2).addAll [((1 : ℕ), 1), (2, 2), (3, 3)]).point_count : ℤ) ≤ 2
      ∧ ((DatasetModel.mk "Untitled" [] 2).addAll [((1 : ℕ), 1), (2, 2), (3, 3)]).points
        = [(2, 2), (3, 3)]) :=
  ⟨(dataset_fifo_invariant ℕ "Untitled" 2 (by decide) [(1, 1), (2, 2), (3, 3)]).1, by decide⟩

/-- C2: `validate` checks the six constraints in source order; for every
configuration it returns `(false, reason)` for the first failing
constraint, with `reason` containing a recognizable keyword for that
constraint, and returns `(true, "")` exactly when all six hold. -/
theorem validate_first_failure (α : Type) [LinearOrder α] [Zero α] (c : ConfigModel α) :
    (c.validate = (true, "") ↔
      (0 < c.amplitude ∧ 0 ≤ c.frequency ∧ 0 ≤ c.noise ∧ 0 < c.x_step ∧
        c.waveform ∈ VALID_WAVEFORMS ∧ 10 ≤ c.max_points))
    ∧ (c.amplitude ≤ 0 →
        c.validate = (false, ampMsg) ∧ hasKeyword "positive" ampMsg)
    ∧ (0 < c.amplitude → c.frequency < 0 →
        c.validate = (false, freqMsg) ∧ hasKeyword "non-negative" freqMsg)
    ∧ (0 < c.amplitude → 0 ≤ c.frequency → c.noise < 0 →
        c.validate = (false, noiseMsg) ∧ hasKeyword "non-negative" noiseMsg)
    ∧ (0 < c.amplitude → 0 ≤ c.frequency → 0 ≤ c.noise → c.x_step ≤ 0 →
        c.validate = (false, stepMsg) ∧ hasKeyword "positive" stepMsg)
    ∧ (0 < c.amplitude → 0 ≤ c.frequency → 0 ≤ c.noise → 0 < c.x_step →
        c.waveform ∉ VALID_WAVEFORMS →
        c.validate = (false, waveMsg) ∧ hasKeyword "waveform" waveMsg)
    ∧ (0 < c.amplitude → 0 ≤ c.frequency → 0 ≤ c.noise → 0 < c.x_step →
        c.waveform ∈ VALID_WAVEFORMS → c.max_points < 10 →
        c.validate = (false, maxPtsMsg) ∧ hasKeyword "max points" maxPtsMsg) := by
  refine ⟨?_, ?_, ?_, ?_, ?_, ?_, ?_⟩
  · simp only [ConfigModel.validate]
    split_ifs with h1 h2 h3 h4 h5 h6 <;>
      simp_all [Prod.ext_iff, not_le, not_lt]
  · intro h1
    exact ⟨by simp [ConfigModel.validate, h1], by decide⟩
  · intro h1 h2
    exact ⟨by simp [ConfigModel.validate, not_le.mpr h1, h2], by decide⟩
  · intro h1 h2 h3
    exact ⟨by simp [ConfigModel.validate, not_le.mpr h1, not_lt.mpr h2, h3], by decide⟩
  · intro h1 h2 h3 h4
    exact ⟨by simp [ConfigModel.validate, not_le.mpr h1, not_lt.mpr h2, not_lt.mpr h3, h4],
      by decide⟩
  · intro h1 h2 h3 h4 h5
    exact ⟨by simp [ConfigModel.validate, not_le.mpr h1, not_lt.mpr h2, not_lt.mpr h3,
      not_le.mpr h4, h5], by decide⟩
  · intro h1 h2 h3 h4 h5 h6
    exact ⟨by simp [ConfigModel.validate, not_le.mpr h1, not_lt.mpr h2, not_lt.mpr h3,
      not_le.mpr h4, h5, h6], by decide⟩

/-- Concrete runs of C2: an all-valid config passes; a config with
`amplitude = 0` fails with the amplitude message; an unknown waveform
fails with the waveform message. -/
theorem validate_first_failure_witness :
    (ConfigModel.mk (1 : ℚ) 0 0 1 "sine" 5000).validate = (true, "")
    ∧ (ConfigModel.mk (0 : ℚ) 0 0 1 "sine" 5000).validate = (false, ampMsg)
    ∧ (ConfigModel.mk (1 : ℚ) 0 0 1 "triangle" 5000).validate = (false, waveMsg) :=
  ⟨(validate_first_failure ℚ (ConfigModel.mk 1 0 0 1 "sine" 5000)).1.mpr
      ⟨by decide, by decide, by decide, by decide, by decide, by decide⟩,
    ((validate_first_failure ℚ (ConfigModel.mk 0 0 0 1 "sine" 5000)).2.1 (by decide)).1,
    ((validate_first_failure ℚ (ConfigModel.mk 1 0 0 1 "triangle" 5000)).2.2.2.2.2.1
      (by decide) (by decide) (by decide) (by decide) (by decide)).1⟩

/-- C5: if `validate` fails, `apply_config` returns `False` and leaves
the whole state unchanged (config, dataset points, dataset capacity,
running flag); if it succeeds, it returns `True`, replaces the config
wholesale, and sets `dataset.max_length` to the new `max_points`. -/
theorem apply_config_spec (α : Type) [LinearOrder α] [Zero α]
    (st : AppState α) (c : ConfigModel α) :
    (c.validate.1 = false → st.apply_config c = (st, false))
    ∧ (c.validate.1 = true → st.apply_config c =
        (AppState.mk c (DatasetModel.mk st.dataset.name st.dataset.points c.max_points)
          st.running, true)) := by
  constructor <;> intro h <;> simp [AppState.apply_config, h]

/-- Concrete runs of C5: a rejected candidate leaves the state intact and
returns `false`; an accepted one replaces the config and capacity. -/
theorem apply_config_spec_witness :
    (AppState.mk (ConfigModel.mk (1 : ℚ) 0 0 1 "sine" 5000)
        (DatasetModel.mk "d" [(1, 2)] 5000) false).apply_config
        (ConfigModel.mk 0 0 0 1 "sine" 5000)
      = (AppState.mk (ConfigModel.mk (1 : ℚ) 0 0 1 "sine" 5000)
          (DatasetModel.mk "d" [(1, 2)] 5000) false, false)
    ∧ (AppState.mk (ConfigModel.mk (1 : ℚ) 0 0 1 "sine" 5000)
        (DatasetModel.mk "d" [(1, 2)] 5000) false).apply_config
        (ConfigModel.mk 2 0 0 1 "square" 20)
      = (AppState.mk (ConfigModel.mk (2 : ℚ) 0 0 1 "square" 20)
          (DatasetModel.mk "d" [(1, 2)] 20) false, true) :=
  ⟨(apply_config_spec ℚ (AppState.mk (ConfigModel.mk 1 0 0 1 "sine" 5000)
      (DatasetModel.mk "d" [(1, 2)] 5000) false) (ConfigModel.mk 0 0 0 1 "sine" 5000)).1
      (by decide),
    (apply_config_spec ℚ (AppState.mk (ConfigModel.mk 1 0 0 1 "sine" 5000)
      (DatasetModel.mk "d" [(1, 2)] 5000) false) (ConfigModel.mk 2 0 0 1 "square" 20)).2
      (by decide)⟩

/-- C9: applying a valid configuration whose `max_points` is below the
current `point_count` updates only the stored config and the buffer
capacity; the points list (and name, and running flag) are untouched —
the oversized buffer is not retroactively truncated. -/
theorem apply_config_no_truncate (α : Type) [LinearOrder α] [Zero α]
    (st : AppState α) (c : ConfigModel α) (hv : c.validate.1 = true)
    (hover : c.max_points < (st.dataset.points.length : ℤ)) :
    (st.apply_config c).2 = true
    ∧ (st.apply_config c).1.config = c
    ∧ (st.apply_config c).1.dataset.max_length = c.max_points
    ∧ (st.apply_config c).1.dataset.points = st.dataset.points
    ∧ (st.apply_config c).1.dataset.name = st.dataset.name
    ∧ (st.apply_config c).1.running = st.running := by
  simp [AppState.apply_config, hv]

/-- Concrete run of C9: an 11-point buffer survives a capacity drop to
10 untruncated. -/
theorem apply_config_no_truncate_witness :
    ((AppState.mk (ConfigModel.mk (1 : ℚ) 0 0 1 "sine" 5000)
        (DatasetModel.mk "d" (List.replicate 11 (0, 0)) 5000) true).apply_config
        (ConfigModel.mk 1 0 0 1 "sine" 10)).2 = true
    ∧ ((AppState.mk (ConfigModel.mk (1 : ℚ) 0 0 1 "sine" 5000)
        (DatasetModel.mk "d" (List.replicate 11 (0, 0)) 5000) true).apply_config
        (ConfigModel.mk 1 0 0 1 "sine" 10)).1.dataset.points
      = List.replicate 11 ((0 : ℚ), 0) :=
  ⟨(apply_config_no_truncate ℚ (AppState.mk (ConfigModel.mk 1 0 0 1 "sine" 5000)
      (DatasetModel.mk "d" (List.replicate 11 (0, 0)) 5000) true)
      (ConfigModel.mk 1 0 0 1 "sine" 10) (by decide) (by decide)).1,
    (apply_config_no_truncate ℚ (AppState.mk (ConfigModel.mk 1 0 0 1 "sine" 5000)
      (DatasetModel.mk "d" (List.replicate 11 (0, 0)) 5000) true)
      (ConfigModel.mk 1 0 0 1 "sine" 10) (by decide) (by decide)).2.2.2.1⟩

/-- Method `DataStream._sine_wave` from `core/data_stream.py`:
`amplitude * sin(2π * frequency * x)`. -/
noncomputable def sine_wave (cfg : ConfigModel ℝ) (x : ℝ) : ℝ :=
  cfg.amplitude * Real.sin (2 * Real.pi * cfg.frequency * x)

/-- Python float `%` (for the positive divisors used here):
`x % p = x - p * ⌊x / p⌋`. -/
noncomputable def pymod (x p : ℝ) : ℝ :=
  x - p * ⌊x / p⌋

/-- Method `DataStream._square_wave` from `core/data_stream.py`: period is
`1.0 / frequency` when `frequency > 0`, else `1.0`; phase is
`(x % period) / period`; `+amplitude` on the first half-period,
`-amplitude` on the second. -/
noncomputable def square_wave (cfg : ConfigModel ℝ) (x : ℝ) : ℝ :=
  let period := if cfg.frequency > 0 then 1.0 / cfg.frequency else 1.0
  let phase := pymod x period / period
  if phase < 0.5 then cfg.amplitude else -cfg.amplitude

/-- Model of `random.uniform(a, b)` with its unit draw `u` made explicit:
`a + (b - a) * u`. -/
def pyUniform (a b u : ℝ) : ℝ :=
  a + (b - a) * u

/-- Model of `random.gauss(mu, sigma)` with its standard-normal draw `z` made
explicit: `mu + sigma * z`. -/
def pyGauss (mu sigma z : ℝ) : ℝ :=
  mu + sigma * z

/-- Method `DataStream._random_walk` from `core/data_stream.py`: add a step
drawn uniformly from `[-amplitude, +amplitude]` to the carried `y_last`;
the new cumulative value is both returned and stored. -/
noncomputable def random_walk (cfg : ConfigModel ℝ) (y_last u : ℝ) : ℝ :=
  y_last + pyUniform (-cfg.amplitude) cfg.amplitude u

/-- Method `DataStream._generate_y` from `core/data_stream.py`: dispatch on
`config.waveform` (unknown waveforms yield base `0.0`), then add
`random.gauss(0, config.noise)`.  Returns the emitted sample together
with the updated `y_last`. -/
noncomputable def generate_y (cfg : ConfigModel ℝ) (x_current y_last u z : ℝ) : ℝ × ℝ :=
  let bases : ℝ × ℝ :=
    if cfg.waveform = "sine" then (sine_wave cfg x_current, y_last)
    else if cfg.waveform = "square" then (square_wave cfg x_current, y_last)
    else if cfg.waveform = "randomwalk" then
      let yl := random_walk cfg y_last u
      (yl, yl)
    else (0, y_last)
  (bases.1 + pyGauss 0 cfg.noise z, bases.2)

/-- C4: with zero noise, the sine sample equals
`amplitude * sin(2π * frequency * x)` exactly (the real-number embedding
subsumes the 1e-10 tolerance), and the sample at `x = 0` is `0` for any
amplitude and frequency. -/
theorem sine_sample_spec (cfg : ConfigModel ℝ) (x y u z : ℝ)
    (hw : cfg.waveform = "sine") (hn : cfg.noise = 0)
    (hA : 0 < cfg.amplitude) (hf : 0 ≤ cfg.frequency) :
    (generate_y cfg x y u z).1 = cfg.amplitude * Real.sin (2 * Real.pi * cfg.frequency * x)
    ∧ (generate_y cfg 0 y u z).1 = 0 := by
  constructor <;> simp [generate_y, hw, hn, pyGauss, sine_wave]

/-- Concrete run of C4 at amplitude 1, frequency 1, `x = 0`. -/
theorem sine_sample_spec_witness :
    (generate_y (ConfigModel.mk 1 1 0 1 "sine" 5000) 0 0 0 0).1
        = 1 * Real.sin (2 * Real.pi * 1 * 0)
    ∧ (generate_y (ConfigModel.mk 1 1 0 1 "sine" 5000) 0 0 0 0).1 = 0 :=
  sine_sample_spec (ConfigModel.mk 1 1 0 1 "sine" 5000) 0 0 0 0 rfl rfl
    (by norm_num) (by norm_num)

/-- C3: with zero noise, the square sample is `+amplitude` when the phase
`(x mod period) / period` is below `0.5` and `-amplitude` otherwise,
where the period is `1/frequency` for `frequency > 0` and the fallback
`1.0` for `frequency = 0` (so `frequency = 0` never divides by zero). -/
theorem square_sample_spec (cfg : ConfigModel ℝ) (x y u z : ℝ)
    (hw : cfg.waveform = "square") (hn : cfg.noise = 0) :
    (generate_y cfg x y u z).1 =
      (if pymod x (if cfg.frequency > 0 then 1.0 / cfg.frequency else 1.0)
          / (if cfg.frequency > 0 then 1.0 / cfg.frequency else 1.0) < 0.5
        then cfg.amplitude else -cfg.amplitude)
    ∧ (cfg.frequency = 0 →
        (generate_y cfg x y u z).1 =
          (if pymod x 1.0 / 1.0 < 0.5 then cfg.amplitude else -cfg.amplitude)) := by
  have h1 : (generate_y cfg x y u z).1 = square_wave cfg x := by
    simp [generate_y, hw, hn, pyGauss]
  constructor
  · rw [h1]
    rfl
  · intro hf
    rw [h1]
    simp [square_wave, hf]

/-- Concrete run of C3 at amplitude 1, frequency 1, `x = 1/4`: the phase
is `1/4 < 0.5`, so the sample is `+1`. -/
theorem square_sample_spec_witness :
    (generate_y (ConfigModel.mk 1 1 0 1 "square" 5000) (1 / 4) 0 0 0).1
        = (if pymod (1 / 4) (if (1 : ℝ) > 0 then 1.0 / 1 else 1.0)
            / (if (1 : ℝ) > 0 then 1.0 / 1 else 1.0) < 0.5
          then (1 : ℝ) else -1)
    ∧ (generate_y (ConfigModel.mk 1 1 0 1 "square" 5000) (1 / 4) 0 0 0).1 = 1 := by
  refine ⟨(square_sample_spec (ConfigModel.mk 1 1 0 1 "square" 5000) (1 / 4) 0 0 0 rfl rfl).1, ?_⟩
  have hfl : ⌊(1 / 4 : ℝ) / (1.0 / 1)⌋ = 0 := by
    rw [Int.floor_eq_zero_iff]
    constructor <;> norm_num
  simp only [generate_y, square_wave, pymod, pyGauss]
  norm_num [hfl, ((by decide : ¬ ("square" : String) = "sine"))]

/-- C8: with zero noise and a sine or square waveform, the sampled output
is a function of the configuration and cursor position alone: it does not
depend on the carried random-walk state or on any random draws, so two
independently constructed generators with identical config and cursor
produce identical output. -/
theorem zero_noise_deterministic (cfg : ConfigModel ℝ)
    (hw : cfg.waveform = "sine" ∨ cfg.waveform = "square") (hn : cfg.noise = 0)
    (x y₁ y₂ u₁ u₂ z₁ z₂ : ℝ) :
    (generate_y cfg x y₁ u₁ z₁).1 = (generate_y cfg x y₂ u₂ z₂).1 := by
  rcases hw with h | h <;> simp [generate_y, h, hn, pyGauss]

/-- Concrete run of C8: two sine generators with different internal state
and different random draws emit the same sample. -/
theorem zero_noise_deterministic_witness :
    (generate_y (ConfigModel.mk 1 1 0 1 "sine" 5000) 1 0 (1 / 2) (1 / 3)).1
      = (generate_y (ConfigModel.mk 1 1 0 1 "sine" 5000) 1 5 (1 / 7) (1 / 9)).1 :=
  zero_noise_deterministic (ConfigModel.mk 1 1 0 1 "sine" 5000) (Or.inl rfl) rfl
    1 0 5 (1 / 2) (1 / 7) (1 / 3) (1 / 9)

/-- Python `repr` of a string field, as it appears inside a ValueError
message or an f-string rendering of a list. -/
def pyReprStr (s : String) : String :=
  "\x27" ++ s ++ "\x27"

/-- Python `repr` of a list of strings, as an f-string renders a csv row. -/
def pyReprStrList (l : List String) : String :=
  "[" ++ String.intercalate ", " (l.map pyReprStr) ++ "]"

/-- read_csv message: `"File not found: {file_path}"`. -/
def notFoundMsg (p : String) : String :=
  "File not found: " ++ p

/-- read_csv message for a file with no rows at all. -/
def emptyMsg : String :=
  "CSV file is empty"

/-- read_csv message: `"Expected header ['x', 'y'], got {header}"`. -/
def headerMsg (h : List String) : String :=
  "Expected header [\x27x\x27, \x27y\x27], got " ++ pyReprStrList h

/-- read_csv message: `"Row {n}: expected 2 values, got {k}"`. -/
def rowLenMsg (n k : ℕ) : String :=
  "Row " ++ toString n ++ ": expected 2 values, got " ++ toString k

/-- read_csv message: `"Row {n}: invalid numeric values: {e}"`, with `e`
the text of the ValueError raised by `float(field)`. -/
def invalidMsg (n : ℕ) (f : String) : String :=
  "Row " ++ toString n ++ ": invalid numeric values: could not convert string to float: "
    ++ pyReprStr f

/-- read_csv success message: `"Loaded {n} points from {file_path}"`. -/
def loadedMsg (n : ℕ) (p : String) : String :=
  "Loaded " ++ toString n ++ " points from " ++ p

/-- write_csv success message: `"Saved {n} points to {file_path}"`. -/
def savedMsg (n : ℕ) (p : String) : String :=
  "Saved " ++ toString n ++ " points to " ++ p

/-- The data-row loop of `read_csv` (`io_manager.py`): rows are numbered
from 2; a row without exactly 2 fields aborts with the length message;
a field that `float` (here: `parse`) rejects aborts with the invalid
message (first field tried first); otherwise the parsed pairs are
accumulated in order. -/
def readDataRows {α : Type} (parse : String → Option α) :
    ℕ → List (List String) → Except String (List (α × α))
  | _, [] => Except.ok []
  | n, r :: rs =>
    match r with
    | [a, b] =>
      match parse a with
      | none => Except.error (invalidMsg n a)
      | some x =>
        match parse b with
        | none => Except.error (invalidMsg n b)
        | some y =>
          match readDataRows parse (n + 1) rs with
          | Except.error e => Except.error e
          | Except.ok pts => Except.ok ((x, y) :: pts)
    | _ => Except.error (rowLenMsg n r.length)

/-- Function `read_csv` from `core/io_manager.py`, over the row-level view of the
file (`none` = missing file; the rows are what `csv.reader` yields).
`parse` stands for Python `float`. -/
def read_csv {α : Type} (parse : String → Option α) (file_path : String)
    (file : Option (List (List String))) : List (α × α) × String :=
  match file with
  | none => ([], notFoundMsg file_path)
  | some [] => ([], emptyMsg)
  | some (header :: dataRows) =>
    if header ≠ ["x", "y"] then ([], headerMsg header)
    else
      match readDataRows parse 2 dataRows with
      | Except.error e => ([], e)
      | Except.ok pts => (pts, loadedMsg pts.length file_path)

/-- The rows `write_csv` emits: the header `x,y`, then one row per point
in buffer order; `strF` stands for Python `str`. -/
def write_rows {α : Type} (strF : α → String) (points : List (α × α)) : List (List String) :=
  ["x", "y"] :: points.map (fun p => [strF p.1, strF p.2])

/-- Function `write_csv` from `core/io_manager.py`: returns the file content it
writes together with the `(success, message)` pair. -/
def write_csv {α : Type} (strF : α → String) (file_path : String)
    (points : List (α × α)) : List (List String) × (Bool × String) :=
  (write_rows strF points, (true, savedMsg points.length file_path))

/-- A data row `read_csv` accepts: exactly two fields, both parseable. -/
def GoodRow {α : Type} (parse : String → Option α) (r : List String) : Prop :=
  r.length = 2 ∧ ∀ f ∈ r, parse f ≠ none

/-- The rejection conditions of C6: missing file, absent header, wrong
header, a row without exactly 2 fields, or a field that fails float
parsing. -/
def BadFile {α : Type} (parse : String → Option α)
    (file : Option (List (List String))) : Prop :=
  file = none
  ∨ file = some []
  ∨ (∃ h t, file = some (h :: t) ∧ h ≠ ["x", "y"])
  ∨ (∃ h t, file = some (h :: t) ∧ ∃ r ∈ t, ¬ GoodRow parse r)

/-- Predicate: `msg` is not the success message of a load from `p`, whatever the
count: the formal reading of "an error message" in C6. -/
def NotLoaded (p msg : String) : Prop :=
  ∀ n : ℕ, msg ≠ loadedMsg n p

theorem ne_of_data_head (s t : String) (h : s.data.head? ≠ t.data.head?) : s ≠ t :=
  fun e => h (congrArg (fun q => q.data.head?) e)

theorem loadedMsg_head (n : ℕ) (p : String) : (loadedMsg n p).data.head? = some 'L' := by
  unfold loadedMsg
  rw [String.data_append, String.data_append, String.data_append]
  rfl

theorem notFoundMsg_head (p : String) : (notFoundMsg p).data.head? = some 'F' := by
  unfold notFoundMsg
  rw [String.data_append]
  rfl

theorem headerMsg_head (h : List String) : (headerMsg h).data.head? = some 'E' := by
  unfold headerMsg
  rw [String.data_append]
  rfl

theorem rowLenMsg_head (n k : ℕ) : (rowLenMsg n k).data.head? = some 'R' := by
  unfold rowLenMsg
  rw [String.data_append, String.data_append, String.data_append]
  rfl

theorem invalidMsg_head (n : ℕ) (f : String) : (invalidMsg n f).data.head? = some 'R' := by
  unfold invalidMsg
  rw [String.data_append, String.data_append, String.data_append]
  rfl

theorem emptyMsg_not_loaded (p : String) : NotLoaded p emptyMsg := fun n =>
  ne_of_data_head _ _ (by rw [loadedMsg_head]; decide)

theorem notFoundMsg_not_loaded (p : String) : NotLoaded p (notFoundMsg p) := fun n =>
  ne_of_data_head _ _ (by rw [notFoundMsg_head, loadedMsg_head]; decide)

theorem headerMsg_not_loaded (p : String) (h : List String) :
    NotLoaded p (headerMsg h) := fun n =>
  ne_of_data_head _ _ (by rw [headerMsg_head, loadedMsg_head]; decide)

theorem readDataRows_error_head {α : Type} (parse : String → Option α) :
    ∀ (n : ℕ) (rows : List (List String)) (e : String),
      readDataRows parse n rows = Except.error e → e.data.head? = some 'R' := by
  intro n rows
  induction rows generalizing n with
  | nil =>
    intro e h
    simp [readDataRows] at h
  | cons r rs ih =>
    intro e h
    rcases r with _ | ⟨a, _ | ⟨b, _ | ⟨c, t⟩⟩⟩
    · simp only [readDataRows] at h
      injection h with h2
      exact h2 ▸ rowLenMsg_head _ _
    · simp only [readDataRows] at h
      injection h with h2
      exact h2 ▸ rowLenMsg_head _ _
    · rcases hpa : parse a with _ | x
      · simp only [readDataRows, hpa] at h
        injection h with h2
        exact h2 ▸ invalidMsg_head _ _
      · rcases hpb : parse b with _ | y
        · simp only [readDataRows, hpa, hpb] at h
          injection h with h2
          exact h2 ▸ invalidMsg_head _ _
        · rcases hrec : readDataRows parse (n + 1) rs with e' | pts
          · simp only [readDataRows, hpa, hpb, hrec] at h
            injection h with h2
            exact h2 ▸ ih (n + 1) e' hrec
          · simp only [readDataRows, hpa, hpb, hrec] at h
            exact Except.noConfusion h
    · simp only [readDataRows] at h
      injection h with h2
      exact h2 ▸ rowLenMsg_head _ _

theorem invalidMsg_has_invalid (n : ℕ) (f : String) :
    "invalid".data <:+: (invalidMsg n f).data := by
  refine ⟨"Row ".data ++ (toString n).data ++ ": ".data,
    " numeric values: could not convert string to float: ".data ++ (pyReprStr f).data, ?_⟩
  unfold invalidMsg
  simp only [String.data_append, List.append_assoc]
  congr 2

theorem notFoundMsg_has_not_found (p : String) :
    "not found".data <:+: (notFoundMsg p).data := by
  refine ⟨"File ".data, ": ".data ++ p.data, ?_⟩
  unfold notFoundMsg
  simp only [String.data_append, List.append_assoc]
  rw [← List.append_assoc, ← List.append_assoc]
  congr 1

theorem headerMsg_has_header (h : List String) :
    "header".data <:+: (headerMsg h).data := by
  refine ⟨"Expected ".data, " [\x27x\x27, \x27y\x27], got ".data ++ (pyReprStrList h).data, ?_⟩
  unfold headerMsg
  simp only [String.data_append, List.append_assoc]
  rw [← List.append_assoc, ← List.append_assoc]
  congr 1

theorem readDataRows_ok_spec {α : Type} (parse : String → Option α) :
    ∀ (n : ℕ) (rows : List (List String)),
      (∃ pts, readDataRows parse n rows = Except.ok pts) ↔ ∀ r ∈ rows, GoodRow parse r := by
  intro n rows
  induction rows generalizing n with
  | nil => simp [readDataRows]
  | cons r rs ih =>
    rcases r with _ | ⟨a, _ | ⟨b, _ | ⟨c, t⟩⟩⟩
    · constructor
      · rintro ⟨pts, h⟩
        simp only [readDataRows] at h
        exact Except.noConfusion h
      · intro hall
        exact absurd (hall [] (List.mem_cons_self _ _)).1 (by decide)
    · constructor
      · rintro ⟨pts, h⟩
        simp only [readDataRows] at h
        exact Except.noConfusion h
      · intro hall
        exact absurd (hall [a] (List.mem_cons_self _ _)).1 (by simp)
    · rcases hpa : parse a with _ | x
      · constructor
        · rintro ⟨pts, h⟩
          simp only [readDataRows, hpa] at h
          exact Except.noConfusion h
        · intro hall
          exact absurd hpa ((hall [a, b] (List.mem_cons_self _ _)).2 a (by simp))
      · rcases hpb : parse b with _ | y
        · constructor
          · rintro ⟨pts, h⟩
            simp only [readDataRows, hpa, hpb] at h
            exact Except.noConfusion h
          · intro hall
            exact absurd hpb ((hall [a, b] (List.mem_cons_self _ _)).2 b (by simp))
        · constructor
          · rintro ⟨pts, h⟩
            intro r' hr'
            rcases hrec : readDataRows parse (n + 1) rs with e' | pts'
            · simp only [readDataRows, hpa, hpb, hrec] at h
              exact Except.noConfusion h
            · rcases List.mem_cons.mp hr' with h' | h'
              · subst h'
                refine ⟨rfl, ?_⟩
                intro f hf
                rcases List.mem_cons.mp hf with h'' | h''
                · subst h''
                  simp [hpa]
                · simp only [List.mem_singleton] at h''
                  subst h''
                  simp [hpb]
              · exact (ih (n + 1)).mp ⟨pts', hrec⟩ r' h'
          · intro hall
            obtain ⟨pts', hrec⟩ :=
              (ih (n + 1)).mpr (fun r' h' => hall r' (List.mem_cons_of_mem _ h'))
            exact ⟨(x, y) :: pts', by simp only [readDataRows, hpa, hpb, hrec]⟩
    · constructor
      · rintro ⟨pts, h⟩
        simp only [readDataRows] at h
        exact Except.noConfusion h
      · intro hall
        have := (hall (a :: b :: c :: t) (List.mem_cons_self _ _)).1
        simp at this
    
theorem readDataRows_first_invalid {α : Type} (parse : String → Option α) :
    ∀ (pre : List (List String)) (n : ℕ) (r : List String) (post : List (List String)),
      (∀ q ∈ pre, GoodRow parse q) → r.length = 2 → (∃ f ∈ r, parse f = none) →
      ∃ e, readDataRows parse n (pre ++ r :: post) = Except.error e
        ∧ "invalid".data <:+: e.data := by
  intro pre
  induction pre with
  | nil =>
    intro n r post _ hlen hbad
    obtain ⟨a, b, rfl⟩ := List.length_eq_two.mp hlen
    simp only [List.nil_append]
    obtain ⟨f, hf, hpf⟩ := hbad
    rcases hpa : parse a with _ | x
    · exact ⟨invalidMsg n a, by simp [readDataRows, hpa], invalidMsg_has_invalid n a⟩
    · have hpb : parse b = none := by
        rcases List.mem_cons.mp hf with h' | h'
        · subst h'
          rw [hpa] at hpf
          exact absurd hpf (by simp)
        · simp only [List.mem_singleton] at h'
          subst h'
          exact hpf
      exact ⟨invalidMsg n b, by simp [readDataRows, hpa, hpb], invalidMsg_has_invalid n b⟩
  | cons q pre ih =>
    intro n r post hgood hlen hbad
    have hq := hgood q (List.mem_cons_self _ _)
    obtain ⟨qa, qb, rfl⟩ := List.length_eq_two.mp hq.1
    have hxa : ∃ xa, parse qa = some xa := by
      rcases h : parse qa with _ | xa
      · exact absurd h (hq.2 qa (by simp))
      · exact ⟨xa, rfl⟩
    have hxb : ∃ xb, parse qb = some xb := by
      rcases h : parse qb with _ | xb
      · exact absurd h (hq.2 qb (by simp))
      · exact ⟨xb, rfl⟩
    obtain ⟨xa, hqa⟩ := hxa
    obtain ⟨xb, hqb⟩ := hxb
    obtain ⟨e, he, hinf⟩ :=
      ih (n + 1) r post (fun q' h' => hgood q' (List.mem_cons_of_mem _ h')) hlen hbad
    refine ⟨e, ?_, hinf⟩
    simp only [List.cons_append, readDataRows, hqa, hqb, List.append_eq, he]

theorem readDataRows_roundtrip {α : Type} (strF : α → String) (parse : String → Option α)
    (hcodec : ∀ v, parse (strF v) = some v) :
    ∀ (n : ℕ) (pts : List (α × α)),
      readDataRows parse n (pts.map (fun p => [strF p.1, strF p.2])) = Except.ok pts := by
  intro n pts
  induction pts generalizing n with
  | nil => rfl
  | cons p ps ih =>
    simp only [List.map_cons, readDataRows, hcodec, ih]

/-- C6: `read_csv` returns an empty list with an error message (a message
that is no `loadedMsg`) exactly when the file is missing, has no header
row, has a wrong header, has a row without exactly 2 fields, or has a
field that fails float parsing; the missing-file message contains
"not found", the wrong-header message contains "header", and the message
for non-numeric fields contains "invalid". -/
theorem read_csv_error_spec (α : Type) (parse : String → Option α) (path : String)
    (file : Option (List (List String))) :
    (((read_csv parse path file).1 = [] ∧ NotLoaded path (read_csv parse path file).2)
      ↔ BadFile parse file)
    ∧ (file = none →
        read_csv parse path file = ([], notFoundMsg path)
          ∧ "not found".data <:+: (notFoundMsg path).data)
    ∧ (∀ h t, file = some (h :: t) → h ≠ ["x", "y"] →
        read_csv parse path file = ([], headerMsg h)
          ∧ "header".data <:+: (headerMsg h).data)
    ∧ (∀ pre r post, file = some (["x", "y"] :: (pre ++ r :: post)) →
        (∀ q ∈ pre, GoodRow parse q) → r.length = 2 → (∃ f ∈ r, parse f = none) →
        "invalid".data <:+: (read_csv parse path file).2.data) := by
  refine ⟨?_, ?_, ?_, ?_⟩
  · cases file with
    | none =>
      constructor
      · intro _
        exact Or.inl rfl
      · intro _
        exact ⟨rfl, notFoundMsg_not_loaded path⟩
    | some rows =>
      cases rows with
      | nil =>
        constructor
        · intro _
          exact Or.inr (Or.inl rfl)
        · intro _
          exact ⟨rfl, emptyMsg_not_loaded path⟩
      | cons h t =>
        have hbf : BadFile parse (some (h :: t)) ↔
            (h ≠ ["x", "y"] ∨ ∃ r ∈ t, ¬ GoodRow parse r) := by
          constructor
          · rintro (h1 | h1 | ⟨h', t', heq, hne⟩ | ⟨h', t', heq, hex⟩)
            · exact Option.noConfusion h1
            · injection h1 with h1
              exact List.noConfusion h1
            · injection heq with heq
              injection heq with e1 e2
              exact Or.inl (e1 ▸ hne)
            · injection heq with heq
              injection heq with e1 e2
              exact Or.inr (e2 ▸ hex)
          · rintro (hne | hex)
            · exact Or.inr (Or.inr (Or.inl ⟨h, t, rfl, hne⟩))
            · exact Or.inr (Or.inr (Or.inr ⟨h, t, rfl, hex⟩))
        rw [hbf]
        by_cases hh : h = ["x", "y"]
        · subst hh
          by_cases hgood : ∀ r ∈ t, GoodRow parse r
          · obtain ⟨pts, hok⟩ := (readDataRows_ok_spec parse 2 t).mpr hgood
            constructor
            · rintro ⟨h1, h2⟩
              exfalso
              apply h2 pts.length
              simp [read_csv, hok]
            · rintro (hne | ⟨r, hr, hbadr⟩)
              · exact absurd rfl hne
              · exact absurd (hgood r hr) hbadr
          · push_neg at hgood
            have herr : ∃ e, readDataRows parse 2 t = Except.error e := by
              rcases hre : readDataRows parse 2 t with e | pts
              · exact ⟨e, rfl⟩
              · obtain ⟨r, hr, hb⟩ := hgood
                exact absurd ((readDataRows_ok_spec parse 2 t).mp ⟨pts, hre⟩ r hr) hb
            obtain ⟨e, he⟩ := herr
            have hres : read_csv parse path (some (["x", "y"] :: t)) = ([], e) := by
              simp [read_csv, he]
            constructor
            · intro _
              exact Or.inr hgood
            · intro _
              rw [hres]
              refine ⟨rfl, ?_⟩
              intro k
              apply ne_of_data_head
              rw [readDataRows_error_head parse 2 t e he, loadedMsg_head]
              decide
        · have hres : read_csv parse path (some (h :: t)) = ([], headerMsg h) := by
            simp [read_csv, hh]
          rw [hres]
          constructor
          · intro _
            exact Or.inl hh
          · intro _
            exact ⟨rfl, headerMsg_not_loaded path h⟩
  · intro hf
    subst hf
    exact ⟨rfl, notFoundMsg_has_not_found path⟩
  · intro h t hf hne
    subst hf
    refine ⟨?_, headerMsg_has_header h⟩
    simp [read_csv, hne]
  · intro pre r post hf hpre hlen hbad
    subst hf
    obtain ⟨e, he, hinf⟩ := readDataRows_first_invalid parse pre 2 r post hpre hlen hbad
    have hres : (read_csv parse path (some (["x", "y"] :: (pre ++ r :: post)))).2 = e := by
      simp [read_csv, he]
    rw [hres]
    exact hinf

/-- Concrete runs of C6: a missing file yields the not-found error; a
file whose header is `a,b` yields an empty list with a non-success
message. -/
theorem read_csv_error_spec_witness :
    read_csv (fun s => some s) "a.csv" none = ([], notFoundMsg "a.csv")
    ∧ ((read_csv (fun s => some s) "b.csv" (some [["a", "b"]])).1 = []
        ∧ NotLoaded "b.csv" (read_csv (fun s => some s) "b.csv" (some [["a", "b"]])).2) :=
  ⟨((read_csv_error_spec String (fun s => some s) "a.csv" none).2.1 rfl).1,
    (read_csv_error_spec String (fun s => some s) "b.csv" (some [["a", "b"]])).1.mpr
      (Or.inr (Or.inr (Or.inl ⟨["a", "b"], [], rfl, by decide⟩)))⟩

/-- C7: writing any list of pairs with `write_csv` (header `x,y`, then
one row per point in buffer order) and reading the file back with
`read_csv` returns the original list, provided the field codec
round-trips (Python guarantees `float(str(v)) == v`). -/
theorem csv_roundtrip (α : Type) (strF : α → String) (parse : String → Option α)
    (hcodec : ∀ v, parse (strF v) = some v) (path : String) (pts : List (α × α)) :
    read_csv parse path (some (write_csv strF path pts).1)
      = (pts, loadedMsg pts.length path) := by
  simp [read_csv, write_csv, write_rows, readDataRows_roundtrip strF parse hcodec 2 pts]

/-- Concrete run of C7 on the spec's four-point example, with the
identity codec on the field strings. -/
theorem csv_roundtrip_witness :
    read_csv (fun s => some s) "data.csv"
        (some (write_csv (fun s => s) "data.csv"
          [("0.1", "1.1"), ("0.2", "2.2"), ("0.3", "3.3"), ("10.5", "20.7")]).1)
      = ([("0.1", "1.1"), ("0.2", "2.2"), ("0.3", "3.3"), ("10.5", "20.7")],
          loadedMsg 4 "data.csv") :=
  csv_roundtrip String (fun s => s) (fun s => some s) (fun v => rfl) "data.csv"
    [("0.1", "1.1"), ("0.2", "2.2"), ("0.3", "3.3"), ("10.5", "20.7")]

/-- C10: a file holding only the valid header `x,y` loads successfully as
an empty list with the `Loaded 0 points` message, while a missing file
also returns an empty list but with a different message — so only the
message, not the returned list, distinguishes success from failure. -/
theorem read_csv_header_only (α : Type) (parse : String → Option α) (path : String) :
    read_csv parse path (some [["x", "y"]]) = ([], loadedMsg 0 path)
    ∧ (read_csv parse path none).1 = ([] : List (α × α))
    ∧ (read_csv parse path none).2 ≠ loadedMsg 0 path := by
  refine ⟨?_, rfl, ?_⟩
  · simp [read_csv, readDataRows]
  · show notFoundMsg path ≠ loadedMsg 0 path
    exact notFoundMsg_not_loaded path 0
